import Mathlib

/-!
# TickerTap order/transaction engine — shallow embedding

This file embeds the ledger-mutating core of the TickerTap brokerage
backend (`src/backend/app/routes/transactions.py`,
`src/backend/app/routes/orders.py`, table shapes from
`src/backend/app/models.py`) and proves the specified properties.

Modelling choices:
* Fixed-point decimal columns (`Numeric(18,2)` / `Numeric(18,6)`) are
  modelled as `ℚ`; in-session `Decimal` addition, subtraction and
  multiplication on such values are exact, and the one division site
  (average-cost merge) is treated exactly, with a separate scale-2
  rounding operator `pgRound2` modelling storage quantisation.
* Row ids (UUIDs) are modelled as `Nat`; tables are association lists,
  with `List.find?` as the SQL lookup. Fresh rows are appended at the
  tail, so a lookup of an existing id is never shadowed by a new row
  (UUIDs never collide).
* Each route handler runs inside `async with db.begin()` holding a
  `SELECT ... FOR UPDATE` row lock, so one operation is one atomic,
  serialised step; the embedding is therefore a sequential function on
  the whole database state. Mutations are threaded in source order, and
  a `raise HTTPException` surfaces as `(state-at-raise, some err)`:
  the rollback performed by `db.begin()` discards that state, which is
  modelled by `runOps` below.
* Timestamp columns are modelled as a `Bool` recording whether the
  column was set; request metadata (ip, user agent) is dropped.
* `HTTPException` raise sites are mapped to the error taxonomy of the
  spec by their detail string: "insufficient funds" (both wordings) to
  `insufficientFunds`, "no position to sell" to `noPosition`,
  "insufficient quantity" (both wordings) to `insufficientQuantity`,
  404 "not found" to `notFound`, "only pending orders can be
  cancelled/executed" to `invalidState`, non-positive amount/quantity/
  price to `invalidAmount`, bad side/order_type to `invalidEnum`,
  "unsupported transaction_type" to `unsupportedType`.
-/

-- Batteries marks the rational operations irreducible; re-allow
-- unfolding so that concrete ledger states evaluate by `decide`.
attribute [local semireducible] Rat.add Rat.mul Rat.sub Rat.inv

namespace TickerTap

/-- Error taxonomy (section 7 of the spec), one constructor per
distinct rejection class raised by the embedded routes. -/
inductive Err where
  | invalidAmount
  | invalidEnum
  | unsupportedType
  | notFound
  | insufficientFunds
  | insufficientQuantity
  | noPosition
  | invalidState
  deriving DecidableEq, Repr

/-- `accounts` row (models.py `Account`): owning user and cash balance.
The `balance` column is `Numeric(18,2)` with a `balance >= 0` check
constraint; columns not read by the engine are omitted. -/
structure Account where
  userId : Nat
  balance : ℚ
  deriving DecidableEq, Repr

/-- `holdings` row (models.py `Holding`): position per account and
security. `quantity` is `Numeric(18,6)`, `average_cost` and
`current_price` are `Numeric(18,2)`. -/
structure Holding where
  quantity : ℚ
  average_cost : ℚ
  current_price : ℚ
  deriving DecidableEq, Repr

/-- `orders` row (models.py `Order`). `executed_at` / `cancelled_at`
record whether the timestamp column has been set. -/
structure Order where
  accountId : Nat
  securityId : Nat
  order_type : String
  side : String
  quantity : ℚ
  price : ℚ
  status : String
  filled_quantity : ℚ
  filled_price : Option ℚ
  executed_at : Bool
  cancelled_at : Bool
  deriving DecidableEq, Repr

/-- `transactions` row (models.py `Transaction`). -/
structure Txn where
  accountId : Nat
  transaction_type : String
  amount : ℚ
  status : String
  deriving DecidableEq, Repr

/-- `audit_log` row (models.py `AuditLog`) as written by
`create_transaction`: `old_values` / `new_values` carry the balance
snapshot plus type, amount (currency and request metadata dropped). -/
structure AuditEntry where
  userId : Nat
  action : String
  table_name : String
  oldBalance : ℚ
  newBalance : ℚ
  txType : String
  amount : ℚ
  deriving DecidableEq, Repr

/-- The persistent ledger state: the five tables the engine touches,
plus a fresh-id counter for newly inserted orders. -/
structure DB where
  accounts : List (Nat × Account)
  holdings : List ((Nat × Nat) × Holding)
  orders : List (Nat × Order)
  transactions : List Txn
  audit : List AuditEntry
  nextOrderId : Nat
  deriving DecidableEq, Repr

/-- `SELECT ... FROM accounts WHERE account_id = aid AND user_id = uid`
(the ownership predicate is part of the query itself; `FOR UPDATE` is
the serialisation assumption of the embedding). -/
def lookupAccount (db : DB) (aid uid : Nat) : Option Account :=
  (db.accounts.find? (fun p => p.1 == aid && p.2.userId == uid)).map Prod.snd

/-- `SELECT ... FROM holdings WHERE account_id = aid AND security_id = sid`. -/
def lookupHolding (db : DB) (aid sid : Nat) : Option Holding :=
  (db.holdings.find? (fun p => p.1 == (aid, sid))).map Prod.snd

/-- Lookup of an order row by primary key. -/
def lookupOrder (db : DB) (oid : Nat) : Option Order :=
  (db.orders.find? (fun p => p.1 == oid)).map Prod.snd

/-- `SELECT Order, Account FROM orders JOIN accounts ... WHERE
order_id = oid AND accounts.user_id = uid FOR UPDATE` (used by
`cancel_order` and `execute_order`): the join hides whether the order
is absent or merely owned by another user. -/
def lookupOrderJoined (db : DB) (oid uid : Nat) : Option (Order × Account) :=
  match (db.orders.find? (fun p => p.1 == oid)).map Prod.snd with
  | none => none
  | some order =>
    match (db.accounts.find?
        (fun p => p.1 == order.accountId && p.2.userId == uid)).map Prod.snd with
    | none => none
    | some account => some (order, account)

/-- `UPDATE accounts SET balance = b WHERE account_id = aid` (also the
effect of assigning `account.balance` on a session-loaded row). -/
def updateAccountBalance (db : DB) (aid : Nat) (b : ℚ) : DB :=
  { db with accounts :=
      db.accounts.map (fun p => if p.1 == aid then (p.1, { p.2 with balance := b }) else p) }

/-- In-place update of the holding row keyed by `(aid, sid)` (mutating
a session-loaded `Holding`). -/
def updateHolding (db : DB) (aid sid : Nat) (h : Holding) : DB :=
  { db with holdings :=
      db.holdings.map (fun p => if p.1 == (aid, sid) then (p.1, h) else p) }

/-- `db.add(holding)` for a fresh holding row. -/
def insertHolding (db : DB) (aid sid : Nat) (h : Holding) : DB :=
  { db with holdings := db.holdings ++ [((aid, sid), h)] }

/-- `db.delete(holding)`. -/
def deleteHolding (db : DB) (aid sid : Nat) : DB :=
  { db with holdings := db.holdings.filter (fun p => !(p.1 == (aid, sid))) }

/-- Write back the holding row for `(aid, sid)` after the accounting
step: `none` deletes the row (sell-to-zero); `some h` updates it in
place when present and inserts it otherwise (first buy). -/
def setHoldingRow (db : DB) (aid sid : Nat) : Option Holding → DB
  | none => deleteHolding db aid sid
  | some h =>
    if (lookupHolding db aid sid).isSome then updateHolding db aid sid h
    else insertHolding db aid sid h

/-- `db.add(order)`: insert a fresh order row under a fresh id. -/
def insertOrder (db : DB) (o : Order) : DB :=
  { db with orders := db.orders ++ [(db.nextOrderId, o)],
            nextOrderId := db.nextOrderId + 1 }

/-- In-place update of an order row loaded in the session. -/
def updateOrder (db : DB) (oid : Nat) (o : Order) : DB :=
  { db with orders := db.orders.map (fun p => if p.1 == oid then (p.1, o) else p) }

/-- Request payload for `POST /transactions/create` (schemas.py
`TransactionCreate`, with currency/description/reference dropped). -/
structure TxnPayload where
  accountId : Nat
  transaction_type : String
  amount : ℚ
  deriving DecidableEq, Repr

/-- Request payload for `POST /orders` (schemas.py `OrderCreate`). -/
structure OrderPayload where
  accountId : Nat
  securityId : Nat
  order_type : String
  side : String
  quantity : ℚ
  price : ℚ
  deriving DecidableEq, Repr

/-- transactions.py `create_transaction` (lines 33-141): amount guard,
locked ownership lookup, per-type balance computation, then the balance
update plus transaction and audit inserts, all in one atomic unit.
An error result carries the session state at raise time; `db.begin()`
rolls that state back. -/
def create_transaction (db : DB) (callerId : Nat) (p : TxnPayload) :
    DB × Option Err :=
  if p.amount ≤ 0 then (db, some .invalidAmount)
  else
    match lookupAccount db p.accountId callerId with
    | none => (db, some .notFound)
    | some account =>
      let old_balance := account.balance
      let new_balanceE : Except Err ℚ :=
        if p.transaction_type = "deposit" then
          .ok (old_balance + p.amount)
        else if p.transaction_type = "withdrawal" then
          if old_balance < p.amount then .error .insufficientFunds
          else .ok (old_balance - p.amount)
        else .error .unsupportedType
      match new_balanceE with
      | .error e => (db, some e)
      | .ok new_balance =>
        let db1 := updateAccountBalance db p.accountId new_balance
        let new_txn : Txn :=
          ⟨p.accountId, p.transaction_type, p.amount, "completed"⟩
        let entry : AuditEntry :=
          ⟨callerId, "transaction_create", "transactions",
            old_balance, new_balance, p.transaction_type, p.amount⟩
        ({ db1 with transactions := db1.transactions ++ [new_txn],
                    audit := db1.audit ++ [entry] }, none)

/-- Python `str.lower()` on the character sequence (ASCII lowering,
written over the character list so that the kernel can evaluate it). -/
def strLower (s : String) : String := ⟨s.data.map Char.toLower⟩

/-- orders.py `_normalize_side` (lines 39-57). -/
def normalize_side (side : String) : Except Err String :=
  let s := strLower side
  if s = "buy" ∨ s = "sell" then .ok s else .error .invalidEnum

/-- orders.py `_normalize_order_type` (lines 60-78). -/
def normalize_order_type (order_type : String) : Except Err String :=
  let t := strLower order_type
  if t = "market" ∨ t = "limit" then .ok t else .error .invalidEnum

/-- The buy/sell accounting block of the market-order path of
`place_order` (orders.py lines 188-234), transcribed as written there:
given side, quantity, price, the locked balance of the account and its
current holding (if any), produce the new balance and the holding row
after the trade (`none` = row deleted), or the rejection. -/
def marketOrderAccounting (side : String) (quantity price : ℚ)
    (balance : ℚ) (holding : Option Holding) :
    Except Err (ℚ × Option Holding) :=
  let notional := quantity * price
  if side = "buy" then
    let current_cash := balance
    if current_cash < notional then .error .insufficientFunds
    else
      let newBalance := current_cash - notional
      match holding with
      | none => .ok (newBalance, some ⟨quantity, price, price⟩)
      | some h =>
        let existing_qty := h.quantity
        let existing_cost := h.average_cost
        let total_shares := existing_qty + quantity
        let total_cost := existing_qty * existing_cost + notional
        .ok (newBalance, some ⟨total_shares, total_cost / total_shares, price⟩)
  else
    match holding with
    | none => .error .noPosition
    | some h =>
      let existing_qty := h.quantity
      if existing_qty < quantity then .error .insufficientQuantity
      else
        let new_qty := existing_qty - quantity
        let newBalance := balance + notional
        if new_qty = 0 then .ok (newBalance, none)
        else .ok (newBalance, some ⟨new_qty, h.average_cost, price⟩)

/-- The buy/sell accounting block of `execute_order` (orders.py lines
371-417), transcribed separately from its own source lines (the
duplication is deliberate so that the market/execute identity is a
theorem, not a definition). -/
def executeOrderAccounting (side : String) (quantity price : ℚ)
    (balance : ℚ) (holding : Option Holding) :
    Except Err (ℚ × Option Holding) :=
  let notional := quantity * price
  if side = "buy" then
    let current_cash := balance
    if current_cash < notional then .error .insufficientFunds
    else
      let newBalance := current_cash - notional
      match holding with
      | none => .ok (newBalance, some ⟨quantity, price, price⟩)
      | some h =>
        let existing_qty := h.quantity
        let existing_cost := h.average_cost
        let total_shares := existing_qty + quantity
        let total_cost := existing_qty * existing_cost + notional
        .ok (newBalance, some ⟨total_shares, total_cost / total_shares, price⟩)
  else
    match holding with
    | none => .error .noPosition
    | some h =>
      let existing_qty := h.quantity
      if existing_qty < quantity then .error .insufficientQuantity
      else
        let new_qty := existing_qty - quantity
        let newBalance := balance + notional
        if new_qty = 0 then .ok (newBalance, none)
        else .ok (newBalance, some ⟨new_qty, h.average_cost, price⟩)

/-- orders.py `place_order` (lines 81-251): positivity guards,
side/type normalisation; the limit branch verifies ownership and
inserts a pending order only; the market branch locks the account,
runs the accounting block and inserts the filled order, all in one
atomic unit. The market order row is created with `status="filled"`,
`filled_quantity=quantity`, `filled_price=price` (the source sets no
`executed_at` for market orders). -/
def place_order (db : DB) (callerId : Nat) (p : OrderPayload) :
    DB × Option Err :=
  if p.quantity ≤ 0 then (db, some .invalidAmount)
  else if p.price ≤ 0 then (db, some .invalidAmount)
  else
    match normalize_side p.side with
    | .error e => (db, some e)
    | .ok side =>
      match normalize_order_type p.order_type with
      | .error e => (db, some e)
      | .ok order_type =>
        let effective_price := p.price
        if order_type = "limit" then
          match lookupAccount db p.accountId callerId with
          | none => (db, some .notFound)
          | some _ =>
            let order : Order :=
              ⟨p.accountId, p.securityId, order_type, side, p.quantity,
                effective_price, "pending", 0, none, false, false⟩
            (insertOrder db order, none)
        else
          match lookupAccount db p.accountId callerId with
          | none => (db, some .notFound)
          | some account =>
            let holding := lookupHolding db p.accountId p.securityId
            match marketOrderAccounting side p.quantity effective_price
                account.balance holding with
            | .error e => (db, some e)
            | .ok (newBalance, newHolding) =>
              let db1 := updateAccountBalance db p.accountId newBalance
              let db2 := setHoldingRow db1 p.accountId p.securityId newHolding
              let order : Order :=
                ⟨p.accountId, p.securityId, order_type, side, p.quantity,
                  effective_price, "filled", p.quantity, some effective_price,
                  false, false⟩
              (insertOrder db2 order, none)

/-- orders.py `cancel_order` (lines 254-303): joined locked lookup,
pending-state guard, then the cancelled transition with `cancelled_at`
stamped. -/
def cancel_order (db : DB) (callerId oid : Nat) : DB × Option Err :=
  match lookupOrderJoined db oid callerId with
  | none => (db, some .notFound)
  | some (order, _) =>
    if order.status ≠ "pending" then (db, some .invalidState)
    else
      (updateOrder db oid { order with status := "cancelled", cancelled_at := true },
        none)

/-- orders.py `execute_order` (lines 306-427): joined locked lookup of
order and account, pending-state guard, side normalisation, the
accounting block on the stored side/quantity/price, then the filled
transition with `executed_at` stamped — one atomic unit. -/
def execute_order (db : DB) (callerId oid : Nat) : DB × Option Err :=
  match lookupOrderJoined db oid callerId with
  | none => (db, some .notFound)
  | some (order, account) =>
    if order.status ≠ "pending" then (db, some .invalidState)
    else
      match normalize_side order.side with
      | .error e => (db, some e)
      | .ok side =>
        let qty := order.quantity
        let price := order.price
        let holding := lookupHolding db order.accountId order.securityId
        match executeOrderAccounting side qty price account.balance holding with
        | .error e => (db, some e)
        | .ok (newBalance, newHolding) =>
          let db1 := updateAccountBalance db order.accountId newBalance
          let db2 := setHoldingRow db1 order.accountId order.securityId newHolding
          let db3 := updateOrder db2 oid
            { order with status := "filled", filled_quantity := qty,
                         filled_price := some price, executed_at := true }
          (db3, none)

/-- One engine operation, tagged with its caller. -/
inductive Op where
  | txn (p : TxnPayload)
  | place (p : OrderPayload)
  | cancel (oid : Nat)
  | execute (oid : Nat)
  deriving DecidableEq, Repr

/-- Dispatch one operation. -/
def applyOp (db : DB) (callerId : Nat) : Op → DB × Option Err
  | .txn p => create_transaction db callerId p
  | .place p => place_order db callerId p
  | .cancel oid => cancel_order db callerId oid
  | .execute oid => execute_order db callerId oid

/-- Run a sequence of operations; a rejected operation is rolled back
by `db.begin()`, i.e. the pre-state carries over. -/
def runOps (db : DB) : List (Nat × Op) → DB
  | [] => db
  | (c, op) :: rest =>
    match applyOp db c op with
    | (db', none) => runOps db' rest
    | (_, some _) => runOps db rest

/-- PostgreSQL `numeric(18,2)` storage rounding (half away from zero
for non-negative values): the drift a scale-2 column can introduce. -/
def pgRound2 (x : ℚ) : ℚ := (⌊x * 100 + 1 / 2⌋ : ℤ) / 100

/-- The `balance >= 0` check constraint of the accounts table, read as
a whole-state invariant. -/
def balancesNonneg (db : DB) : Prop := ∀ q ∈ db.accounts, 0 ≤ q.2.balance

/-- The `quantity > 0` check constraint of the orders table together
with the positive-price guard of `place_order`: every stored order
carries a positive quantity and price. -/
def ordersPositive (db : DB) : Prop :=
  ∀ q ∈ db.orders, 0 < q.2.quantity ∧ 0 < q.2.price

/-! ## Frame lemmas: every rejection path returns the untouched state

The session state carried by an error result is the state at raise
time; these lemmas show every `raise` in the four routes happens before
the first mutation, so the `db.begin()` rollback has nothing to undo. -/

theorem create_transaction_err_frame (db : DB) (c : Nat) (p : TxnPayload) (e : Err) :
    (create_transaction db c p).2 = some e → (create_transaction db c p).1 = db := by
  unfold create_transaction
  split
  · intro _; rfl
  · split
    · intro _; rfl
    · dsimp only
      split
      · intro _; rfl
      · intro h; simp at h

theorem place_order_err_frame (db : DB) (c : Nat) (p : OrderPayload) (e : Err) :
    (place_order db c p).2 = some e → (place_order db c p).1 = db := by
  unfold place_order
  split
  · intro _; rfl
  · split
    · intro _; rfl
    · split
      · intro _; rfl
      · split
        · intro _; rfl
        · dsimp only
          split
          · split
            · intro _; rfl
            · intro h; simp at h
          · split
            · intro _; rfl
            · split
              · intro _; rfl
              · intro h; simp at h

theorem cancel_order_err_frame (db : DB) (c oid : Nat) (e : Err) :
    (cancel_order db c oid).2 = some e → (cancel_order db c oid).1 = db := by
  unfold cancel_order
  split
  · intro _; rfl
  · split
    · intro _; rfl
    · intro h; simp at h

theorem execute_order_err_frame (db : DB) (c oid : Nat) (e : Err) :
    (execute_order db c oid).2 = some e → (execute_order db c oid).1 = db := by
  unfold execute_order
  split
  · intro _; rfl
  · split
    · intro _; rfl
    · dsimp only
      split
      · intro _; rfl
      · split
        · intro _; rfl
        · intro h; simp at h

/-- C1: every rejected operation (insufficient funds, insufficient
quantity, no position, unsupported type, bad input, not found, invalid
state) leaves the persistent state — balances, holdings, orders,
transactions and audit rows — exactly as before the call; in
particular a rejected market order creates no order row, since the
whole returned state (its `orders` table included) equals the
pre-state. -/
theorem rejected_operations_change_no_state (db : DB) (c : Nat) :
    (∀ p e, (create_transaction db c p).2 = some e →
      (create_transaction db c p).1 = db) ∧
    (∀ p e, (place_order db c p).2 = some e → (place_order db c p).1 = db) ∧
    (∀ oid e, (cancel_order db c oid).2 = some e → (cancel_order db c oid).1 = db) ∧
    (∀ oid e, (execute_order db c oid).2 = some e → (execute_order db c oid).1 = db) :=
  ⟨fun p e => create_transaction_err_frame db c p e,
   fun p e => place_order_err_frame db c p e,
   fun oid e => cancel_order_err_frame db c oid e,
   fun oid e => execute_order_err_frame db c oid e⟩

/-! ## The shared accounting algorithm (claims C3, C5, C10) -/

theorem accounting_blocks_eq (side : String) (quantity price balance : ℚ)
    (holding : Option Holding) :
    marketOrderAccounting side quantity price balance holding =
      executeOrderAccounting side quantity price balance holding := rfl

theorem marketOrderAccounting_sell_none (q p bal : ℚ) :
    marketOrderAccounting "sell" q p bal none = .error .noPosition := rfl

theorem marketOrderAccounting_sell_short (q p bal : ℚ) (h : Holding)
    (hlt : h.quantity < q) :
    marketOrderAccounting "sell" q p bal (some h) = .error .insufficientQuantity := by
  unfold marketOrderAccounting
  simp only [if_neg (by decide : ¬ ("sell" = "buy"))]
  rw [if_pos hlt]

theorem marketOrderAccounting_sell_all (q p bal : ℚ) (h : Holding)
    (heq : h.quantity = q) :
    marketOrderAccounting "sell" q p bal (some h) = .ok (bal + q * p, none) := by
  unfold marketOrderAccounting
  simp only [if_neg (by decide : ¬ ("sell" = "buy"))]
  rw [if_neg (by simp [heq]), if_pos (by simp [heq])]

theorem marketOrderAccounting_sell_piece (q p bal : ℚ) (h : Holding)
    (hlt : q < h.quantity) :
    marketOrderAccounting "sell" q p bal (some h) =
      .ok (bal + q * p, some ⟨h.quantity - q, h.average_cost, p⟩) := by
  unfold marketOrderAccounting
  simp only [if_neg (by decide : ¬ ("sell" = "buy"))]
  rw [if_neg (not_lt.mpr hlt.le), if_neg (sub_ne_zero.mpr hlt.ne')]

theorem marketOrderAccounting_buy_short (q p bal : ℚ) (oh : Option Holding)
    (hlt : bal < q * p) :
    marketOrderAccounting "buy" q p bal oh = .error .insufficientFunds := by
  unfold marketOrderAccounting
  rw [if_pos rfl, if_pos hlt]

theorem marketOrderAccounting_buy_new (q p bal : ℚ) (hge : ¬ bal < q * p) :
    marketOrderAccounting "buy" q p bal none = .ok (bal - q * p, some ⟨q, p, p⟩) := by
  unfold marketOrderAccounting
  rw [if_pos rfl, if_neg hge]

theorem marketOrderAccounting_buy_add (q p bal : ℚ) (h : Holding)
    (hge : ¬ bal < q * p) :
    marketOrderAccounting "buy" q p bal (some h) =
      .ok (bal - q * p,
        some ⟨h.quantity + q, (h.quantity * h.average_cost + q * p) / (h.quantity + q), p⟩) := by
  unfold marketOrderAccounting
  rw [if_pos rfl, if_neg hge]

/-- C3: the buy/sell accounting block of the market branch of
`place_order` (orders.py 188-234) and the one of `execute_order`
(orders.py 371-417) — each embedded from its own source lines and
invoked by its own route — agree on every side string, every quantity
and price, and every starting (balance, holding) state: same resulting
balance, same resulting holding row (including deletion), and the same
error class in the same rejection cases. -/
theorem market_and_execute_accounting_identical :
    ∀ (side : String) (quantity price balance : ℚ) (holding : Option Holding),
      marketOrderAccounting side quantity price balance holding =
        executeOrderAccounting side quantity price balance holding :=
  accounting_blocks_eq

/-- C5: a sell of quantity `q` at price `p` against holding `h` adds
the notional `q * p` to the balance; selling exactly the held quantity
deletes the row, selling less leaves `h.quantity - q` and sets
`current_price`; a sell with no holding is rejected with NoPosition
and a sell of more than held with InsufficientQuantity — on both the
market path and the execute path. -/
theorem sell_accounting_correct (q p bal : ℚ) (h : Holding) :
    (marketOrderAccounting "sell" q p bal none = .error .noPosition ∧
     executeOrderAccounting "sell" q p bal none = .error .noPosition) ∧
    (h.quantity < q →
      marketOrderAccounting "sell" q p bal (some h) = .error .insufficientQuantity ∧
      executeOrderAccounting "sell" q p bal (some h) = .error .insufficientQuantity) ∧
    (h.quantity = q →
      marketOrderAccounting "sell" q p bal (some h) = .ok (bal + q * p, none) ∧
      executeOrderAccounting "sell" q p bal (some h) = .ok (bal + q * p, none)) ∧
    (q < h.quantity →
      marketOrderAccounting "sell" q p bal (some h) =
        .ok (bal + q * p, some ⟨h.quantity - q, h.average_cost, p⟩) ∧
      executeOrderAccounting "sell" q p bal (some h) =
        .ok (bal + q * p, some ⟨h.quantity - q, h.average_cost, p⟩)) :=
  ⟨⟨marketOrderAccounting_sell_none q p bal,
    (accounting_blocks_eq _ _ _ _ _) ▸ marketOrderAccounting_sell_none q p bal⟩,
   fun hlt => ⟨marketOrderAccounting_sell_short q p bal h hlt,
    (accounting_blocks_eq _ _ _ _ _) ▸ marketOrderAccounting_sell_short q p bal h hlt⟩,
   fun heq => ⟨marketOrderAccounting_sell_all q p bal h heq,
    (accounting_blocks_eq _ _ _ _ _) ▸ marketOrderAccounting_sell_all q p bal h heq⟩,
   fun hlt => ⟨marketOrderAccounting_sell_piece q p bal h hlt,
    (accounting_blocks_eq _ _ _ _ _) ▸ marketOrderAccounting_sell_piece q p bal h hlt⟩⟩

/-- Witness for C5: selling 4 of 10 held units at 160 against balance
1000 yields balance 1640 and a holding of 6 units at unchanged cost. -/
theorem sell_accounting_correct_witness :
    (4:ℚ) < (Holding.mk 10 150 150).quantity ∧
    (marketOrderAccounting "sell" 4 160 1000 (some ⟨10, 150, 150⟩) =
        .ok (1000 + 4 * 160, some ⟨(Holding.mk 10 150 150).quantity - 4, 150, 160⟩) ∧
      executeOrderAccounting "sell" 4 160 1000 (some ⟨10, 150, 150⟩) =
        .ok (1000 + 4 * 160, some ⟨(Holding.mk 10 150 150).quantity - 4, 150, 160⟩)) :=
  ⟨by decide, (sell_accounting_correct 4 160 1000 ⟨10, 150, 150⟩).2.2.2 (by decide)⟩

/-- C10: a sell of strictly less than the held quantity leaves the
`average_cost` field untouched on both paths: the resulting row is the
old one with only `quantity` and `current_price` replaced. -/
theorem piece_sell_preserves_average_cost (q p bal : ℚ) (h : Holding)
    (hlt : q < h.quantity) :
    marketOrderAccounting "sell" q p bal (some h) =
      .ok (bal + q * p, some { h with quantity := h.quantity - q, current_price := p }) ∧
    executeOrderAccounting "sell" q p bal (some h) =
      .ok (bal + q * p, some { h with quantity := h.quantity - q, current_price := p }) :=
  ⟨marketOrderAccounting_sell_piece q p bal h hlt,
   (accounting_blocks_eq _ _ _ _ _) ▸ marketOrderAccounting_sell_piece q p bal h hlt⟩

/-- Witness for C10: selling 3 of 10 held units (cost basis 150) at
price 170 keeps `average_cost = 150`. -/
theorem piece_sell_preserves_average_cost_witness :
    (3:ℚ) < (Holding.mk 10 150 150).quantity ∧
    (marketOrderAccounting "sell" 3 170 500 (some ⟨10, 150, 150⟩) =
      .ok (500 + 3 * 170,
        some { Holding.mk 10 150 150 with
                quantity := (Holding.mk 10 150 150).quantity - 3,
                current_price := 170 }) ∧
    executeOrderAccounting "sell" 3 170 500 (some ⟨10, 150, 150⟩) =
      .ok (500 + 3 * 170,
        some { Holding.mk 10 150 150 with
                quantity := (Holding.mk 10 150 150).quantity - 3,
                current_price := 170 })) :=
  ⟨by decide, piece_sell_preserves_average_cost 3 170 500 ⟨10, 150, 150⟩ (by decide)⟩

/-! ## Table frame lemmas for the write-back helpers -/

theorem setHoldingRow_accounts (db : DB) (a s : Nat) (oh : Option Holding) :
    (setHoldingRow db a s oh).accounts = db.accounts := by
  cases oh with
  | none => rfl
  | some h =>
    unfold setHoldingRow
    split
    · rfl
    · split <;> rfl

theorem setHoldingRow_orders (db : DB) (a s : Nat) (oh : Option Holding) :
    (setHoldingRow db a s oh).orders = db.orders := by
  cases oh with
  | none => rfl
  | some h =>
    unfold setHoldingRow
    split
    · rfl
    · split <;> rfl

theorem setHoldingRow_audit (db : DB) (a s : Nat) (oh : Option Holding) :
    (setHoldingRow db a s oh).audit = db.audit := by
  cases oh with
  | none => rfl
  | some h =>
    unfold setHoldingRow
    split
    · rfl
    · split <;> rfl

/-! ## C6: which precondition checks precede the account lock -/

/-- C6 counterexample: a `create_transaction` call with the unsupported
type "transfer" and a positive amount, on a state where the account
does not exist, is answered with NotFound — not UnsupportedType — so
the type check cannot be running before the locked account lookup. -/
theorem unsupported_type_checked_after_lock_counterexample :
    create_transaction ⟨[(1, ⟨7, 1000⟩)], [], [], [], [], 0⟩ 7 ⟨2, "transfer", 5⟩ =
      (⟨[(1, ⟨7, 1000⟩)], [], [], [], [], 0⟩, some Err.notFound) ∧
    Err.notFound ≠ Err.unsupportedType := by
  constructor
  · decide
  · decide

/-- C6 amended: the amount check is a fail-fast that precedes the
locked lookup (a non-positive amount is rejected with InvalidAmount on
every state, whatever the account table holds); the type check however
runs inside the locked block after the account lookup: an unsupported
type is rejected with UnsupportedType only when the lookup succeeds,
and yields NotFound when the account is absent or owned by another
user. -/
theorem amount_check_first_type_check_inside_lock (db : DB) (c : Nat) (p : TxnPayload) :
    (p.amount ≤ 0 → create_transaction db c p = (db, some .invalidAmount)) ∧
    (0 < p.amount → lookupAccount db p.accountId c = none →
      create_transaction db c p = (db, some .notFound)) ∧
    (∀ a, 0 < p.amount → lookupAccount db p.accountId c = some a →
      p.transaction_type ≠ "deposit" → p.transaction_type ≠ "withdrawal" →
      create_transaction db c p = (db, some .unsupportedType)) := by
  refine ⟨fun h0 => ?_, fun h0 hl => ?_, fun a h0 hl hd hw => ?_⟩
  · unfold create_transaction
    rw [if_pos h0]
  · unfold create_transaction
    rw [if_neg (not_le.mpr h0), hl]
  · unfold create_transaction
    rw [if_neg (not_le.mpr h0), hl]
    dsimp only
    rw [if_neg hd, if_neg hw]

/-- Witness for C6 amended: with the account present, type "transfer"
and amount 5 are rejected with UnsupportedType. -/
theorem amount_check_first_type_check_inside_lock_witness :
    lookupAccount ⟨[(1, ⟨7, 1000⟩)], [], [], [], [], 0⟩ 1 7 = some ⟨7, 1000⟩ ∧
    create_transaction ⟨[(1, ⟨7, 1000⟩)], [], [], [], [], 0⟩ 7 ⟨1, "transfer", 5⟩ =
      (⟨[(1, ⟨7, 1000⟩)], [], [], [], [], 0⟩, some Err.unsupportedType) :=
  ⟨by decide,
   (amount_check_first_type_check_inside_lock ⟨[(1, ⟨7, 1000⟩)], [], [], [], [], 0⟩ 7
      ⟨1, "transfer", 5⟩).2.2 ⟨7, 1000⟩ (by decide) (by decide) (by decide) (by decide)⟩

/-! ## C9: which engine writes audit rows -/

theorem place_order_audit_frame (db : DB) (c : Nat) (p : OrderPayload) :
    (place_order db c p).1.audit = db.audit := by
  unfold place_order
  split
  · rfl
  · split
    · rfl
    · split
      · rfl
      · split
        · rfl
        · dsimp only
          split
          · split
            · rfl
            · rfl
          · split
            · rfl
            · split
              · rfl
              · dsimp only [insertOrder]
                rw [setHoldingRow_audit]
                rfl

theorem cancel_order_audit_frame (db : DB) (c oid : Nat) :
    (cancel_order db c oid).1.audit = db.audit := by
  unfold cancel_order
  split
  · rfl
  · split
    · rfl
    · rfl

theorem execute_order_audit_frame (db : DB) (c oid : Nat) :
    (execute_order db c oid).1.audit = db.audit := by
  unfold execute_order
  split
  · rfl
  · split
    · rfl
    · dsimp only
      split
      · rfl
      · split
        · rfl
        · dsimp only [updateOrder]
          rw [setHoldingRow_audit]
          rfl

/-- C9 counterexample: a successful market buy — a lock-gated ledger
mutation that changes the account balance and creates a holding and an
order row — commits with the audit table exactly as before (empty), so
not every lock-gated ledger mutation writes an AuditLog row. -/
theorem order_engine_writes_no_audit_row :
    (place_order ⟨[(1, ⟨7, 10000⟩)], [], [], [], [], 0⟩ 7
        ⟨1, 2, "market", "buy", 10, 150⟩).2 = none ∧
    (place_order ⟨[(1, ⟨7, 10000⟩)], [], [], [], [], 0⟩ 7
        ⟨1, 2, "market", "buy", 10, 150⟩).1.accounts = [(1, ⟨7, 8500⟩)] ∧
    (place_order ⟨[(1, ⟨7, 10000⟩)], [], [], [], [], 0⟩ 7
        ⟨1, 2, "market", "buy", 10, 150⟩).1.audit = [] := by
  refine ⟨by decide, by decide, by decide⟩

/-- C9 amended: the transaction engine writes exactly one AuditLog row
in the same atomic unit as each committed balance mutation, while the
order engine (market placement, cancel, execute) writes no audit row
at all — its commits leave the audit table unchanged. -/
theorem audit_rows_only_from_transaction_engine (db : DB) (c : Nat) :
    (∀ p db', create_transaction db c p = (db', none) →
      ∃ e, db'.audit = db.audit ++ [e] ∧ e.action = "transaction_create" ∧
        e.table_name = "transactions") ∧
    (∀ p, (place_order db c p).1.audit = db.audit) ∧
    (∀ oid, (cancel_order db c oid).1.audit = db.audit) ∧
    (∀ oid, (execute_order db c oid).1.audit = db.audit) := by
  refine ⟨fun p db' hok => ?_, fun p => place_order_audit_frame db c p,
    fun oid => cancel_order_audit_frame db c oid,
    fun oid => execute_order_audit_frame db c oid⟩
  unfold create_transaction at hok
  split at hok
  · simp at hok
  · split at hok
    · simp at hok
    · dsimp only at hok
      split at hok
      · simp at hok
      · rename_i x1 account hlook x2 new_balance heq
        have hdb : db' = _ := (congrArg Prod.fst hok).symm
        refine ⟨⟨c, "transaction_create", "transactions",
          account.balance, new_balance, p.transaction_type, p.amount⟩, ?_, rfl, rfl⟩
        rw [hdb]
        rfl

/-- Witness for C9 amended: a deposit of 500 on balance 1000 commits
with exactly one new audit row appended. -/
theorem audit_rows_only_from_transaction_engine_witness :
    create_transaction ⟨[(1, ⟨7, 1000⟩)], [], [], [], [], 0⟩ 7 ⟨1, "deposit", 500⟩ =
      (⟨[(1, ⟨7, 1500⟩)], [], [],
        [⟨1, "deposit", 500, "completed"⟩],
        [⟨7, "transaction_create", "transactions", 1000, 1500, "deposit", 500⟩], 0⟩, none) ∧
    (∃ e, (⟨[(1, ⟨7, 1500⟩)], [], [],
        [⟨1, "deposit", 500, "completed"⟩],
        [⟨7, "transaction_create", "transactions", 1000, 1500, "deposit", 500⟩], 0⟩ : DB).audit =
      (⟨[(1, ⟨7, 1000⟩)], [], [], [], [], 0⟩ : DB).audit ++ [e] ∧
      e.action = "transaction_create" ∧ e.table_name = "transactions") :=
  ⟨by decide,
   (audit_rows_only_from_transaction_engine ⟨[(1, ⟨7, 1000⟩)], [], [], [], [], 0⟩ 7).1
     ⟨1, "deposit", 500⟩ _ (by decide)⟩

/-! ## C8: absent and foreign-owned rows are indistinguishable -/

/-- When every account row with the requested id belongs to a user
other than the caller — which covers both "no such row" and "row owned
by someone else" — the ownership-filtered lookup returns nothing. -/
theorem lookupAccount_eq_none (db : DB) (aid c : Nat)
    (h : ∀ q ∈ db.accounts, q.1 = aid → q.2.userId ≠ c) :
    lookupAccount db aid c = none := by
  unfold lookupAccount
  have hf : db.accounts.find? (fun q => q.1 == aid && q.2.userId == c) = none := by
    apply List.find?_eq_none.mpr
    intro x hx
    simp only [Bool.and_eq_true, beq_iff_eq, not_and]
    intro h1 h2
    exact h x hx h1 h2
  rw [hf]
  rfl

/-- Same for the joined order/account lookup of cancel and execute:
if every order row with the requested id (there may be none) sits on
an account that is absent or foreign-owned, the join is empty. -/
theorem lookupOrderJoined_eq_none (db : DB) (oid c : Nat)
    (h : ∀ q ∈ db.orders, q.1 = oid →
      ∀ r ∈ db.accounts, r.1 = q.2.accountId → r.2.userId ≠ c) :
    lookupOrderJoined db oid c = none := by
  unfold lookupOrderJoined
  cases hf : db.orders.find? (fun p => p.1 == oid) with
  | none => rfl
  | some q =>
    have hq1 : q.1 = oid := by simpa using List.find?_some hf
    have hqmem : q ∈ db.orders := List.mem_of_find?_eq_some hf
    have hacc : db.accounts.find?
        (fun r => r.1 == q.2.accountId && r.2.userId == c) = none := by
      apply List.find?_eq_none.mpr
      intro r hr
      simp only [Bool.and_eq_true, beq_iff_eq, not_and]
      intro h1 h2
      exact h q hqmem hq1 r hr h1 h2
    simp only [Option.map_some']
    rw [hacc]
    rfl

theorem create_transaction_notFound (db : DB) (c : Nat) (p : TxnPayload)
    (h0 : 0 < p.amount) (hl : lookupAccount db p.accountId c = none) :
    create_transaction db c p = (db, some .notFound) := by
  unfold create_transaction
  rw [if_neg (not_le.mpr h0), hl]

theorem place_order_notFound (db : DB) (c : Nat) (p : OrderPayload) (s t : String)
    (hq : ¬ p.quantity ≤ 0) (hp : ¬ p.price ≤ 0)
    (hs : normalize_side p.side = .ok s) (ht : normalize_order_type p.order_type = .ok t)
    (hl : lookupAccount db p.accountId c = none) :
    place_order db c p = (db, some .notFound) := by
  unfold place_order
  rw [if_neg hq, if_neg hp, hs]
  dsimp only
  rw [ht]
  dsimp only
  split
  · rw [hl]
  · rw [hl]

theorem cancel_order_notFound (db : DB) (c oid : Nat)
    (hl : lookupOrderJoined db oid c = none) :
    cancel_order db c oid = (db, some .notFound) := by
  unfold cancel_order
  rw [hl]

theorem execute_order_notFound (db : DB) (c oid : Nat)
    (hl : lookupOrderJoined db oid c = none) :
    execute_order db c oid = (db, some .notFound) := by
  unfold execute_order
  rw [hl]

/-- C8: whenever every account row carrying the requested account id is
owned by a user other than the caller — a hypothesis satisfied both
when no such row exists and when rows exist but belong to someone else
— `create_transaction` and `place_order` return exactly
`(db, NotFound)`; likewise `cancel_order` and `execute_order` under the
corresponding hypothesis on the joined order/account rows. The two
situations are therefore observationally identical to the caller, and
no distinct forbidden error exists, because the ownership predicate is
part of the lookup itself. -/
theorem not_found_hides_foreign_ownership (db : DB) (c : Nat) :
    (∀ p : TxnPayload, 0 < p.amount →
      (∀ q ∈ db.accounts, q.1 = p.accountId → q.2.userId ≠ c) →
      create_transaction db c p = (db, some .notFound)) ∧
    (∀ (p : OrderPayload) (s t : String), ¬ p.quantity ≤ 0 → ¬ p.price ≤ 0 →
      normalize_side p.side = .ok s → normalize_order_type p.order_type = .ok t →
      (∀ q ∈ db.accounts, q.1 = p.accountId → q.2.userId ≠ c) →
      place_order db c p = (db, some .notFound)) ∧
    (∀ oid : Nat,
      (∀ q ∈ db.orders, q.1 = oid →
        ∀ r ∈ db.accounts, r.1 = q.2.accountId → r.2.userId ≠ c) →
      cancel_order db c oid = (db, some .notFound) ∧
      execute_order db c oid = (db, some .notFound)) :=
  ⟨fun p h0 h => create_transaction_notFound db c p h0 (lookupAccount_eq_none db p.accountId c h),
   fun p s t hq hp hs ht h =>
     place_order_notFound db c p s t hq hp hs ht (lookupAccount_eq_none db p.accountId c h),
   fun oid h =>
     ⟨cancel_order_notFound db c oid (lookupOrderJoined_eq_none db oid c h),
      execute_order_notFound db c oid (lookupOrderJoined_eq_none db oid c h)⟩⟩

/-- Witness for C8: caller 7 on a state whose only account (id 1) and
only order (id 0, on account 1) belong to user 9: every operation is
answered with NotFound, never a forbidden error. -/
theorem not_found_hides_foreign_ownership_witness :
    ((0:ℚ) < (5:ℚ) ∧
      (∀ q ∈ ([(1, ⟨9, 1000⟩)] : List (Nat × Account)), q.1 = 1 → q.2.userId ≠ 7)) ∧
    (create_transaction
      ⟨[(1, ⟨9, 1000⟩)], [],
        [(0, ⟨1, 2, "limit", "buy", 5, 100, "pending", 0, none, false, false⟩)],
        [], [], 1⟩ 7 ⟨1, "deposit", 5⟩ =
      (⟨[(1, ⟨9, 1000⟩)], [],
        [(0, ⟨1, 2, "limit", "buy", 5, 100, "pending", 0, none, false, false⟩)],
        [], [], 1⟩, some Err.notFound)) ∧
    (cancel_order
      ⟨[(1, ⟨9, 1000⟩)], [],
        [(0, ⟨1, 2, "limit", "buy", 5, 100, "pending", 0, none, false, false⟩)],
        [], [], 1⟩ 7 0 =
      (⟨[(1, ⟨9, 1000⟩)], [],
        [(0, ⟨1, 2, "limit", "buy", 5, 100, "pending", 0, none, false, false⟩)],
        [], [], 1⟩, some Err.notFound)) :=
  ⟨⟨by decide, by decide⟩,
   (not_found_hides_foreign_ownership _ 7).1 ⟨1, "deposit", 5⟩ (by decide) (by decide),
   ((not_found_hides_foreign_ownership _ 7).2.2 0 (by decide)).1⟩

/-! ## C7: filled and cancelled are terminal -/

/-- Updating the row under a different key leaves a keyed lookup
unchanged. -/
theorem find?_key_map_update (l : List (Nat × Order)) (k oid : Nat) (o' : Order)
    (hne : k ≠ oid) :
    (l.map (fun p => if p.1 == k then (p.1, o') else p)).find? (fun p => p.1 == oid)
      = l.find? (fun p => p.1 == oid) := by
  induction l with
  | nil => rfl
  | cons x xs ih =>
    simp only [List.map_cons]
    by_cases hk : x.1 = k
    · have hxo : (x.1 == oid) = false := by simp [hk, hne]
      rw [if_pos (by simp [hk])]
      rw [List.find?_cons_of_neg _ (by simp [hxo]), List.find?_cons_of_neg _ (by simp [hxo])]
      exact ih
    · rw [if_neg (by simp [hk])]
      by_cases ho : x.1 = oid
      · rw [List.find?_cons_of_pos _ (by simp [ho]), List.find?_cons_of_pos _ (by simp [ho])]
      · rw [List.find?_cons_of_neg _ (by simp [ho]), List.find?_cons_of_neg _ (by simp [ho])]
        exact ih

theorem lookupOrder_updateOrder_ne (db : DB) (k : Nat) (o' : Order) (oid : Nat)
    (hne : k ≠ oid) :
    lookupOrder (updateOrder db k o') oid = lookupOrder db oid := by
  unfold lookupOrder updateOrder
  rw [find?_key_map_update db.orders k oid o' hne]

/-- A fresh row appended at the tail never shadows an existing id. -/
theorem lookupOrder_append (db : DB) (oid : Nat) (o : Order) (x : Nat × Order)
    (h : lookupOrder db oid = some o) :
    (Option.map Prod.snd ((db.orders ++ [x]).find? (fun p => p.1 == oid))) = some o := by
  unfold lookupOrder at h
  cases hf : db.orders.find? (fun p => p.1 == oid) with
  | none => rw [hf] at h; simp at h
  | some q =>
    rw [hf] at h
    rw [List.find?_append, hf]
    exact h

/-- The joined lookup returns exactly the row the plain order lookup
returns. -/
theorem lookupOrderJoined_fst (db : DB) (oid c : Nat) (o : Order) (a : Account)
    (h : lookupOrderJoined db oid c = some (o, a)) :
    lookupOrder db oid = some o := by
  unfold lookupOrderJoined at h
  unfold lookupOrder
  cases hf : db.orders.find? (fun p => p.1 == oid) with
  | none => rw [hf] at h; simp at h
  | some q =>
    rw [hf] at h
    simp only [Option.map_some'] at h ⊢
    cases hg : (db.accounts.find?
        (fun p => p.1 == q.2.accountId && p.2.userId == c)).map Prod.snd with
    | none => rw [hg] at h; simp at h
    | some a' =>
      rw [hg] at h
      simp only [Option.some.injEq, Prod.mk.injEq] at h
      rw [h.1]

theorem create_transaction_orders_frame (db : DB) (c : Nat) (p : TxnPayload) :
    (create_transaction db c p).1.orders = db.orders := by
  unfold create_transaction
  split
  · rfl
  · split
    · rfl
    · dsimp only
      split
      · rfl
      · rfl

theorem setHoldingRow_nextOrderId (db : DB) (a s : Nat) (oh : Option Holding) :
    (setHoldingRow db a s oh).nextOrderId = db.nextOrderId := by
  cases oh with
  | none => rfl
  | some h =>
    unfold setHoldingRow
    split
    · rfl
    · split <;> rfl

/-- `place_order` either leaves the order table alone (a rejection) or
appends one fresh row at the tail under the fresh id. -/
theorem place_order_orders_shape (db : DB) (c : Nat) (p : OrderPayload) :
    (place_order db c p).1.orders = db.orders ∨
    ∃ o', (place_order db c p).1.orders = db.orders ++ [(db.nextOrderId, o')] := by
  unfold place_order
  split
  · exact .inl rfl
  · split
    · exact .inl rfl
    · split
      · exact .inl rfl
      · split
        · exact .inl rfl
        · dsimp only
          split
          · split
            · exact .inl rfl
            · exact .inr ⟨_, rfl⟩
          · split
            · exact .inl rfl
            · split
              · exact .inl rfl
              · right
                dsimp only [insertOrder]
                rw [setHoldingRow_orders, setHoldingRow_nextOrderId]
                exact ⟨_, rfl⟩

theorem cancel_order_preserves_terminal (db : DB) (c' oid2 oid : Nat) (o : Order)
    (hfound : lookupOrder db oid = some o)
    (hterm : o.status = "filled" ∨ o.status = "cancelled") :
    lookupOrder (cancel_order db c' oid2).1 oid = some o := by
  unfold cancel_order
  cases hl : lookupOrderJoined db oid2 c' with
  | none => exact hfound
  | some pr =>
    obtain ⟨o2, a2⟩ := pr
    dsimp only
    split
    · exact hfound
    · rename_i hpending
      by_cases heq : oid2 = oid
      · exfalso
        have h2 : lookupOrder db oid = some o2 := heq ▸ lookupOrderJoined_fst db oid2 c' o2 a2 hl
        rw [hfound] at h2
        have ho2 : o = o2 := by simpa using h2
        rw [not_not] at hpending
        rw [← ho2] at hpending
        cases hterm with
        | inl hf => rw [hf] at hpending; exact absurd hpending (by decide)
        | inr hc => rw [hc] at hpending; exact absurd hpending (by decide)
      · rw [lookupOrder_updateOrder_ne db oid2 _ oid heq]
        exact hfound

theorem execute_order_preserves_terminal (db : DB) (c' oid2 oid : Nat) (o : Order)
    (hfound : lookupOrder db oid = some o)
    (hterm : o.status = "filled" ∨ o.status = "cancelled") :
    lookupOrder (execute_order db c' oid2).1 oid = some o := by
  unfold execute_order
  cases hl : lookupOrderJoined db oid2 c' with
  | none => exact hfound
  | some pr =>
    obtain ⟨o2, a2⟩ := pr
    dsimp only
    split
    · exact hfound
    · rename_i hpending
      split
      · exact hfound
      · rename_i side hside
        split
        · exact hfound
        · rename_i res nb nh hacc
          by_cases heq : oid2 = oid
          · exfalso
            have h2 : lookupOrder db oid = some o2 :=
              heq ▸ lookupOrderJoined_fst db oid2 c' o2 a2 hl
            rw [hfound] at h2
            have ho2 : o = o2 := by simpa using h2
            rw [not_not] at hpending
            rw [← ho2] at hpending
            cases hterm with
            | inl hf => rw [hf] at hpending; exact absurd hpending (by decide)
            | inr hc => rw [hc] at hpending; exact absurd hpending (by decide)
          · have hfound2 : lookupOrder
                (setHoldingRow (updateAccountBalance db o2.accountId nb)
                  o2.accountId o2.securityId nh) oid = some o := by
              unfold lookupOrder
              rw [setHoldingRow_orders]
              exact hfound
            rw [lookupOrder_updateOrder_ne _ oid2 _ oid heq]
            exact hfound2

/-- C7: filled and cancelled are terminal. First, cancelling or
executing any order that is not pending fails with InvalidState and
returns the untouched state. Second, a filled or cancelled order row
survives every engine operation byte-for-byte: no operation ever
rewrites it, so no transition out of a terminal status exists. -/
theorem terminal_order_statuses_frozen (db : DB) (c : Nat) :
    (∀ oid o a, lookupOrderJoined db oid c = some (o, a) → o.status ≠ "pending" →
      cancel_order db c oid = (db, some .invalidState) ∧
      execute_order db c oid = (db, some .invalidState)) ∧
    (∀ (op : Op) (oid : Nat) (o : Order), lookupOrder db oid = some o →
      o.status = "filled" ∨ o.status = "cancelled" →
      lookupOrder (applyOp db c op).1 oid = some o) := by
  constructor
  · intro oid o a hl hs
    constructor
    · unfold cancel_order
      rw [hl]
      dsimp only
      rw [if_pos hs]
    · unfold execute_order
      rw [hl]
      dsimp only
      rw [if_pos hs]
  · intro op oid o hfound hterm
    cases op with
    | txn p =>
      show lookupOrder (create_transaction db c p).1 oid = some o
      unfold lookupOrder
      rw [create_transaction_orders_frame]
      exact hfound
    | place p =>
      show lookupOrder (place_order db c p).1 oid = some o
      cases place_order_orders_shape db c p with
      | inl hsame =>
        unfold lookupOrder
        rw [hsame]
        exact hfound
      | inr hext =>
        obtain ⟨o', ho'⟩ := hext
        unfold lookupOrder
        rw [ho']
        exact lookupOrder_append db oid o _ hfound
    | cancel oid2 => exact cancel_order_preserves_terminal db c oid2 oid o hfound hterm
    | execute oid2 => exact execute_order_preserves_terminal db c oid2 oid o hfound hterm

/-- Witness for C7: cancelling and executing a filled order both fail
with InvalidState and change nothing, and the filled row survives a
deposit on the same state. -/
theorem terminal_order_statuses_frozen_witness :
    (lookupOrderJoined
        ⟨[(1, ⟨7, 1000⟩)], [],
          [(0, ⟨1, 2, "market", "buy", 5, 100, "filled", 5, some 100, false, false⟩)],
          [], [], 1⟩ 0 7 =
      some (⟨1, 2, "market", "buy", 5, 100, "filled", 5, some 100, false, false⟩, ⟨7, 1000⟩) ∧
     ("filled" : String) ≠ "pending") ∧
    (cancel_order
        ⟨[(1, ⟨7, 1000⟩)], [],
          [(0, ⟨1, 2, "market", "buy", 5, 100, "filled", 5, some 100, false, false⟩)],
          [], [], 1⟩ 7 0 =
      (⟨[(1, ⟨7, 1000⟩)], [],
          [(0, ⟨1, 2, "market", "buy", 5, 100, "filled", 5, some 100, false, false⟩)],
          [], [], 1⟩, some Err.invalidState) ∧
     execute_order
        ⟨[(1, ⟨7, 1000⟩)], [],
          [(0, ⟨1, 2, "market", "buy", 5, 100, "filled", 5, some 100, false, false⟩)],
          [], [], 1⟩ 7 0 =
      (⟨[(1, ⟨7, 1000⟩)], [],
          [(0, ⟨1, 2, "market", "buy", 5, 100, "filled", 5, some 100, false, false⟩)],
          [], [], 1⟩, some Err.invalidState)) ∧
    lookupOrder (applyOp
        ⟨[(1, ⟨7, 1000⟩)], [],
          [(0, ⟨1, 2, "market", "buy", 5, 100, "filled", 5, some 100, false, false⟩)],
          [], [], 1⟩ 7 (.txn ⟨1, "deposit", 50⟩)).1 0 =
      some ⟨1, 2, "market", "buy", 5, 100, "filled", 5, some 100, false, false⟩ :=
  ⟨⟨by decide, by decide⟩,
   (terminal_order_statuses_frozen _ 7).1 0
     ⟨1, 2, "market", "buy", 5, 100, "filled", 5, some 100, false, false⟩ ⟨7, 1000⟩
     (by decide) (by decide),
   (terminal_order_statuses_frozen _ 7).2 (.txn ⟨1, "deposit", 50⟩) 0
     ⟨1, 2, "market", "buy", 5, 100, "filled", 5, some 100, false, false⟩
     (by decide) (.inl (by decide))⟩

/-! ## C2: balances never go negative -/

theorem lookupAccount_balance_nonneg (db : DB) (aid uid : Nat) (a : Account)
    (hb : balancesNonneg db) (h : lookupAccount db aid uid = some a) :
    0 ≤ a.balance := by
  unfold lookupAccount at h
  cases hf : db.accounts.find? (fun p => p.1 == aid && p.2.userId == uid) with
  | none => rw [hf] at h; simp at h
  | some q =>
    rw [hf] at h
    simp only [Option.map_some', Option.some.injEq] at h
    rw [← h]
    exact hb q (List.mem_of_find?_eq_some hf)

theorem lookupOrderJoined_balance_nonneg (db : DB) (oid c : Nat) (o : Order)
    (a : Account) (hb : balancesNonneg db)
    (h : lookupOrderJoined db oid c = some (o, a)) : 0 ≤ a.balance := by
  unfold lookupOrderJoined at h
  cases hf : db.orders.find? (fun p => p.1 == oid) with
  | none => rw [hf] at h; simp at h
  | some q =>
    rw [hf] at h
    simp only [Option.map_some'] at h
    cases hg : db.accounts.find?
        (fun p => p.1 == q.2.accountId && p.2.userId == c) with
    | none => rw [hg] at h; simp at h
    | some r =>
      rw [hg] at h
      simp only [Option.map_some', Option.some.injEq, Prod.mk.injEq] at h
      rw [← h.2]
      exact hb r (List.mem_of_find?_eq_some hg)

theorem lookupOrder_pos (db : DB) (oid : Nat) (o : Order)
    (ho : ordersPositive db) (h : lookupOrder db oid = some o) :
    0 < o.quantity ∧ 0 < o.price := by
  unfold lookupOrder at h
  cases hf : db.orders.find? (fun p => p.1 == oid) with
  | none => rw [hf] at h; simp at h
  | some q =>
    rw [hf] at h
    simp only [Option.map_some', Option.some.injEq] at h
    rw [← h]
    exact ho q (List.mem_of_find?_eq_some hf)

theorem balancesNonneg_update (db : DB) (aid : Nat) (nb : ℚ)
    (hb : balancesNonneg db) (hnb : 0 ≤ nb) :
    balancesNonneg (updateAccountBalance db aid nb) := by
  intro q hq
  unfold updateAccountBalance at hq
  simp only [List.mem_map] at hq
  obtain ⟨r, hr, hmap⟩ := hq
  by_cases hk : r.1 == aid
  · rw [if_pos hk] at hmap
    rw [← hmap]
    exact hnb
  · rw [if_neg hk] at hmap
    rw [← hmap]
    exact hb r hr

theorem balancesNonneg_of_accounts_eq (db1 db2 : DB)
    (h : db1.accounts = db2.accounts) (hb : balancesNonneg db2) :
    balancesNonneg db1 := by
  intro q hq
  exact hb q (h ▸ hq)

theorem ordersPositive_of_orders_eq (db1 db2 : DB)
    (h : db1.orders = db2.orders) (ho : ordersPositive db2) :
    ordersPositive db1 := by
  intro q hq
  exact ho q (h ▸ hq)

theorem ordersPositive_insert (db : DB) (o : Order) (ho : ordersPositive db)
    (h1 : 0 < o.quantity) (h2 : 0 < o.price) :
    ordersPositive (insertOrder db o) := by
  intro q hq
  unfold insertOrder at hq
  simp only [List.mem_append, List.mem_singleton] at hq
  cases hq with
  | inl hin => exact ho q hin
  | inr heq => rw [heq]; exact ⟨h1, h2⟩

theorem ordersPositive_update (db : DB) (oid : Nat) (o : Order)
    (ho : ordersPositive db) (h1 : 0 < o.quantity) (h2 : 0 < o.price) :
    ordersPositive (updateOrder db oid o) := by
  intro q hq
  unfold updateOrder at hq
  simp only [List.mem_map] at hq
  obtain ⟨r, hr, hmap⟩ := hq
  by_cases hk : r.1 == oid
  · rw [if_pos hk] at hmap
    rw [← hmap]
    exact ⟨h1, h2⟩
  · rw [if_neg hk] at hmap
    rw [← hmap]
    exact ho r hr

/-- On any successful run, the accounting block returns a non-negative
balance: a buy is guarded by the sufficiency check and a sell only adds
the positive notional. -/
theorem marketOrderAccounting_ok_nonneg (side : String) (q p bal nb : ℚ)
    (nh : Option Holding) (oh : Option Holding)
    (hbal : 0 ≤ bal) (hq : 0 < q) (hp : 0 < p)
    (h : marketOrderAccounting side q p bal oh = .ok (nb, nh)) : 0 ≤ nb := by
  have hqp : 0 < q * p := mul_pos hq hp
  unfold marketOrderAccounting at h
  split at h
  · cases oh with
    | none =>
      dsimp only at h
      split at h
      · simp at h
      · rename_i hge
        rw [not_lt] at hge
        simp only [Except.ok.injEq, Prod.mk.injEq] at h
        rw [← h.1]
        linarith
    | some hh =>
      dsimp only at h
      split at h
      · simp at h
      · rename_i hge
        rw [not_lt] at hge
        simp only [Except.ok.injEq, Prod.mk.injEq] at h
        rw [← h.1]
        linarith
  · cases oh with
    | none => simp at h
    | some hh =>
      dsimp only at h
      split at h
      · simp at h
      · split at h
        · simp only [Except.ok.injEq, Prod.mk.injEq] at h
          rw [← h.1]
          linarith
        · simp only [Except.ok.injEq, Prod.mk.injEq] at h
          rw [← h.1]
          linarith

/-- A committed transaction keeps every balance non-negative (deposit
adds a positive amount, withdrawal is guarded) and does not touch the
orders table. -/
theorem create_transaction_ok_inv (db : DB) (c : Nat) (p : TxnPayload) (db' : DB)
    (hb : balancesNonneg db) (ho : ordersPositive db)
    (h : create_transaction db c p = (db', none)) :
    balancesNonneg db' ∧ ordersPositive db' := by
  unfold create_transaction at h
  split at h
  · simp at h
  · rename_i hamt
    rw [not_le] at hamt
    split at h
    · simp at h
    · rename_i account hlook
      dsimp only at h
      split at h
      · simp at h
      · rename_i new_balance heq
        have hdb : db' = _ := (congrArg Prod.fst h).symm
        have hbal : 0 ≤ account.balance :=
          lookupAccount_balance_nonneg db p.accountId c account hb hlook
        have hnb : 0 ≤ new_balance := by
          by_cases hd : p.transaction_type = "deposit"
          · rw [if_pos hd] at heq
            simp only [Except.ok.injEq] at heq
            linarith
          · rw [if_neg hd] at heq
            by_cases hw : p.transaction_type = "withdrawal"
            · rw [if_pos hw] at heq
              by_cases hlt : account.balance < p.amount
              · rw [if_pos hlt] at heq
                simp at heq
              · rw [if_neg hlt] at heq
                rw [not_lt] at hlt
                simp only [Except.ok.injEq] at heq
                linarith
            · rw [if_neg hw] at heq
              simp at heq
        constructor
        · apply balancesNonneg_of_accounts_eq db'
            (updateAccountBalance db p.accountId new_balance)
          · rw [hdb]
          · exact balancesNonneg_update db p.accountId new_balance hb hnb
        · apply ordersPositive_of_orders_eq db' db _ ho
          rw [hdb]
          exact create_transaction_orders_frame db c p ▸ rfl

/-- A committed order placement keeps every balance non-negative and
inserts only positively sized orders. -/
theorem place_order_ok_inv (db : DB) (c : Nat) (p : OrderPayload) (db' : DB)
    (hb : balancesNonneg db) (ho : ordersPositive db)
    (h : place_order db c p = (db', none)) :
    balancesNonneg db' ∧ ordersPositive db' := by
  unfold place_order at h
  split at h
  · simp at h
  · rename_i hqle
    split at h
    · simp at h
    · rename_i hple
      rw [not_le] at hqle hple
      split at h
      · simp at h
      · split at h
        · simp at h
        · dsimp only at h
          split at h
          · split at h
            · simp at h
            · have hdb : db' = _ := (congrArg Prod.fst h).symm
              constructor
              · apply balancesNonneg_of_accounts_eq db' db _ hb
                rw [hdb]
                rfl
              · apply ordersPositive_of_orders_eq db'
                  (insertOrder db ⟨p.accountId, p.securityId, _, _, p.quantity,
                    p.price, "pending", 0, none, false, false⟩)
                · rw [hdb]
                · exact ordersPositive_insert db _ ho hqle hple
          · split at h
            · simp at h
            · rename_i account hlook
              split at h
              · simp at h
              · rename_i newBalance newHolding hacc
                have hdb : db' = _ := (congrArg Prod.fst h).symm
                have hnb : 0 ≤ newBalance :=
                  marketOrderAccounting_ok_nonneg _ _ _ _ _ _ _
                    (lookupAccount_balance_nonneg db p.accountId c account hb hlook)
                    hqle hple hacc
                constructor
                · apply balancesNonneg_of_accounts_eq db'
                    (updateAccountBalance db p.accountId newBalance)
                  · rw [hdb]
                    dsimp only [insertOrder]
                    rw [setHoldingRow_accounts]
                  · exact balancesNonneg_update db p.accountId newBalance hb hnb
                · apply ordersPositive_of_orders_eq db'
                    (insertOrder (setHoldingRow
                      (updateAccountBalance db p.accountId newBalance)
                      p.accountId p.securityId newHolding)
                      ⟨p.accountId, p.securityId, _, _, p.quantity, p.price,
                        "filled", p.quantity, some p.price, false, false⟩)
                  · rw [hdb]
                  · apply ordersPositive_insert _ _ _ hqle hple
                    apply ordersPositive_of_orders_eq _ db _ ho
                    rw [setHoldingRow_orders]
                    rfl

/-- A committed cancellation rewrites only the status and timestamp of
one pending order: balances and order sizes are untouched. -/
theorem cancel_order_ok_inv (db : DB) (c oid : Nat) (db' : DB)
    (hb : balancesNonneg db) (ho : ordersPositive db)
    (h : cancel_order db c oid = (db', none)) :
    balancesNonneg db' ∧ ordersPositive db' := by
  unfold cancel_order at h
  split at h
  · simp at h
  · rename_i order snd hl
    split at h
    · simp at h
    · rename_i hpend
      have hdb : db' = _ := (congrArg Prod.fst h).symm
      have hpos := lookupOrder_pos db oid order ho
        (lookupOrderJoined_fst db oid c order snd hl)
      constructor
      · apply balancesNonneg_of_accounts_eq db' db _ hb
        rw [hdb]
        rfl
      · apply ordersPositive_of_orders_eq db'
          (updateOrder db oid
            { order with status := "cancelled", cancelled_at := true })
        · rw [hdb]
        · exact ordersPositive_update db oid _ ho hpos.1 hpos.2

/-- A committed execution applies the guarded accounting block and
rewrites only one order row, keeping its quantity and price. -/
theorem execute_order_ok_inv (db : DB) (c oid : Nat) (db' : DB)
    (hb : balancesNonneg db) (ho : ordersPositive db)
    (h : execute_order db c oid = (db', none)) :
    balancesNonneg db' ∧ ordersPositive db' := by
  unfold execute_order at h
  split at h
  · simp at h
  · rename_i order account hl
    split at h
    · simp at h
    · rename_i hpend
      dsimp only at h
      split at h
      · simp at h
      · rename_i side hside
        split at h
        · simp at h
        · rename_i newBalance newHolding hacc
          have hdb : db' = _ := (congrArg Prod.fst h).symm
          have hfst := lookupOrderJoined_fst db oid c order account hl
          have hpos := lookupOrder_pos db oid order ho hfst
          have hbal := lookupOrderJoined_balance_nonneg db oid c order account hb hl
          have hnb : 0 ≤ newBalance :=
            marketOrderAccounting_ok_nonneg side order.quantity order.price
              account.balance newBalance newHolding _ hbal hpos.1 hpos.2
              ((accounting_blocks_eq side order.quantity order.price account.balance
                (lookupHolding db order.accountId order.securityId)).trans hacc)
          constructor
          · apply balancesNonneg_of_accounts_eq db'
              (updateAccountBalance db order.accountId newBalance)
            · rw [hdb]
              show (setHoldingRow (updateAccountBalance db order.accountId newBalance)
                  order.accountId order.securityId newHolding).accounts =
                (updateAccountBalance db order.accountId newBalance).accounts
              exact setHoldingRow_accounts _ _ _ _
            · exact balancesNonneg_update db order.accountId newBalance hb hnb
          · apply ordersPositive_of_orders_eq db'
              (updateOrder (setHoldingRow
                (updateAccountBalance db order.accountId newBalance)
                order.accountId order.securityId newHolding) oid
                { order with status := "filled", filled_quantity := order.quantity,
                             filled_price := some order.price, executed_at := true })
            · rw [hdb]
            · refine ordersPositive_update _ oid _ ?_ hpos.1 hpos.2
              apply ordersPositive_of_orders_eq _ db _ ho
              rw [setHoldingRow_orders]
              rfl

/-- The two invariants are preserved by every run: committed steps by
the per-operation lemmas, rejected steps by the rollback. -/
theorem runOps_inv (ops : List (Nat × Op)) (db : DB)
    (hb : balancesNonneg db) (ho : ordersPositive db) :
    balancesNonneg (runOps db ops) ∧ ordersPositive (runOps db ops) := by
  induction ops generalizing db with
  | nil => exact ⟨hb, ho⟩
  | cons x rest ih =>
    obtain ⟨cid, op⟩ := x
    unfold runOps
    cases hr : applyOp db cid op with
    | mk db' oe =>
      cases oe with
      | none =>
        dsimp only
        have hinv : balancesNonneg db' ∧ ordersPositive db' := by
          cases op with
          | txn p => exact create_transaction_ok_inv db cid p db' hb ho hr
          | place p => exact place_order_ok_inv db cid p db' hb ho hr
          | cancel oid => exact cancel_order_ok_inv db cid oid db' hb ho hr
          | execute oid => exact execute_order_ok_inv db cid oid db' hb ho hr
        exact ih db' hinv.1 hinv.2
      | some e =>
        dsimp only
        exact ih db hb ho

theorem create_transaction_withdrawal_guard (db : DB) (c : Nat) (p : TxnPayload)
    (a : Account) (hamt : ¬ p.amount ≤ 0) (hw : p.transaction_type = "withdrawal")
    (hl : lookupAccount db p.accountId c = some a) (hlt : a.balance < p.amount) :
    create_transaction db c p = (db, some .insufficientFunds) := by
  unfold create_transaction
  rw [if_neg hamt, hl]
  dsimp only
  rw [if_neg (by rw [hw]; decide), if_pos hw, if_pos hlt]

theorem place_order_buy_guard (db : DB) (c : Nat) (p : OrderPayload) (a : Account)
    (hq : ¬ p.quantity ≤ 0) (hp : ¬ p.price ≤ 0)
    (hs : normalize_side p.side = .ok "buy")
    (ht : normalize_order_type p.order_type = .ok "market")
    (hl : lookupAccount db p.accountId c = some a)
    (hlt : a.balance < p.quantity * p.price) :
    place_order db c p = (db, some .insufficientFunds) := by
  unfold place_order
  rw [if_neg hq, if_neg hp, hs]
  dsimp only
  rw [ht]
  dsimp only
  rw [if_neg (by decide : ¬ ("market" = "limit")), hl]
  dsimp only
  rw [marketOrderAccounting_buy_short p.quantity p.price a.balance _ hlt]

/-- C2: starting from any state whose balances satisfy the
`balance >= 0` constraint (and whose stored orders have positive size,
as placement guarantees), every sequence of deposit, withdrawal, and
order operations — in any interleaving of callers — preserves
`balance >= 0` on every account; since every prefix of a sequence is a
sequence, the invariant holds after each committed operation. Moreover
the two debiting operations are guarded before any mutation: a
withdrawal exceeding the balance and a market buy whose notional
exceeds the balance are both rejected with InsufficientFunds and the
untouched state. -/
theorem balance_nonnegative_always (db : DB)
    (hb : balancesNonneg db) (ho : ordersPositive db) :
    (∀ ops : List (Nat × Op), balancesNonneg (runOps db ops)) ∧
    (∀ (c : Nat) (p : TxnPayload) (a : Account), ¬ p.amount ≤ 0 →
      p.transaction_type = "withdrawal" →
      lookupAccount db p.accountId c = some a → a.balance < p.amount →
      create_transaction db c p = (db, some .insufficientFunds)) ∧
    (∀ (c : Nat) (p : OrderPayload) (a : Account), ¬ p.quantity ≤ 0 → ¬ p.price ≤ 0 →
      normalize_side p.side = .ok "buy" →
      normalize_order_type p.order_type = .ok "market" →
      lookupAccount db p.accountId c = some a →
      a.balance < p.quantity * p.price →
      place_order db c p = (db, some .insufficientFunds)) :=
  ⟨fun ops => (runOps_inv ops db hb ho).1,
   fun c p a hamt hw hl hlt =>
     create_transaction_withdrawal_guard db c p a hamt hw hl hlt,
   fun c p a hq hp hs ht hl hlt =>
     place_order_buy_guard db c p a hq hp hs ht hl hlt⟩

/-- Witness for C2: a deposit, an over-large withdrawal (rejected), a
market buy and a sell keep the balance non-negative throughout. -/
theorem balance_nonnegative_always_witness :
    balancesNonneg ⟨[(1, ⟨7, 100⟩)], [], [], [], [], 0⟩ ∧
    ordersPositive ⟨[(1, ⟨7, 100⟩)], [], [], [], [], 0⟩ ∧
    balancesNonneg (runOps ⟨[(1, ⟨7, 100⟩)], [], [], [], [], 0⟩
      [(7, .txn ⟨1, "deposit", 50⟩), (7, .txn ⟨1, "withdrawal", 1000⟩),
       (7, .place ⟨1, 2, "market", "buy", 4, 30⟩),
       (7, .place ⟨1, 2, "market", "sell", 4, 25⟩)]) :=
  ⟨by unfold balancesNonneg; decide, by unfold ordersPositive; decide,
   (balance_nonnegative_always ⟨[(1, ⟨7, 100⟩)], [], [], [], [], 0⟩
      (by unfold balancesNonneg; decide) (by unfold ordersPositive; decide)).1
     [(7, .txn ⟨1, "deposit", 50⟩), (7, .txn ⟨1, "withdrawal", 1000⟩),
      (7, .place ⟨1, 2, "market", "buy", 4, 30⟩),
      (7, .place ⟨1, 2, "market", "sell", 4, 25⟩)]⟩

/-! ## C4: exact average-cost accounting over two buys -/

/-- Scale-2 storage moves a value by at most half a cent. -/
theorem pgRound2_within_half_cent (x : ℚ) : |pgRound2 x - x| ≤ 1 / 200 := by
  unfold pgRound2
  have h1 : (⌊x * 100 + 1 / 2⌋ : ℚ) ≤ x * 100 + 1 / 2 := Int.floor_le _
  have h2 : x * 100 + 1 / 2 - 1 < (⌊x * 100 + 1 / 2⌋ : ℚ) := Int.sub_one_lt_floor _
  rw [abs_le]
  constructor
  · linarith
  · linarith

/-- Successful market path of `place_order`, written out: lock lookup,
accounting block, balance write, holding write-back, order insert. -/
theorem place_order_market_ok (db : DB) (c : Nat) (p : OrderPayload) (s : String)
    (a : Account) (nb : ℚ) (nh : Option Holding)
    (hq : ¬ p.quantity ≤ 0) (hp : ¬ p.price ≤ 0)
    (hs : normalize_side p.side = .ok s)
    (ht : normalize_order_type p.order_type = .ok "market")
    (hl : lookupAccount db p.accountId c = some a)
    (hacc : marketOrderAccounting s p.quantity p.price a.balance
      (lookupHolding db p.accountId p.securityId) = .ok (nb, nh)) :
    place_order db c p =
      (insertOrder (setHoldingRow (updateAccountBalance db p.accountId nb)
        p.accountId p.securityId nh)
        ⟨p.accountId, p.securityId, "market", s, p.quantity, p.price, "filled",
          p.quantity, some p.price, false, false⟩, none) := by
  unfold place_order
  rw [if_neg hq, if_neg hp, hs]
  dsimp only
  rw [ht]
  dsimp only
  rw [if_neg (by decide : ¬ ("market" = "limit")), hl]
  dsimp only
  rw [hacc]

/-- Rewriting the balance of the looked-up account row is visible to
the next ownership lookup as exactly that balance change. -/
theorem find?_acct_update (l : List (Nat × Account)) (aid uid : Nat) (a : Account)
    (nb : ℚ)
    (h : (l.find? (fun p => p.1 == aid && p.2.userId == uid)).map Prod.snd = some a) :
    ((l.map (fun p => if p.1 == aid then (p.1, { p.2 with balance := nb }) else p)).find?
        (fun p => p.1 == aid && p.2.userId == uid)).map Prod.snd
      = some { a with balance := nb } := by
  induction l with
  | nil => simp at h
  | cons x xs ih =>
    simp only [List.map_cons]
    by_cases hk : x.1 = aid
    · by_cases hu : x.2.userId = uid
      · rw [List.find?_cons_of_pos _ (by simp [hk, hu])] at h
        rw [if_pos (by simp [hk])]
        rw [List.find?_cons_of_pos _ (by simp [hk, hu])]
        simp only [Option.map_some', Option.some.injEq] at h ⊢
        rw [← h]
      · rw [List.find?_cons_of_neg _ (by simp [hu])] at h
        rw [if_pos (by simp [hk])]
        rw [List.find?_cons_of_neg _ (by simp [hu])]
        exact ih h
    · rw [List.find?_cons_of_neg _ (by simp [hk])] at h
      rw [if_neg (by simp [hk])]
      rw [List.find?_cons_of_neg _ (by simp [hk])]
      exact ih h

theorem lookupAccount_update_self (db : DB) (aid uid : Nat) (a : Account) (nb : ℚ)
    (h : lookupAccount db aid uid = some a) :
    lookupAccount (updateAccountBalance db aid nb) aid uid =
      some { a with balance := nb } := by
  unfold lookupAccount updateAccountBalance at *
  exact find?_acct_update db.accounts aid uid a nb h

theorem find?_hold_update_self (l : List ((Nat × Nat) × Holding)) (k : Nat × Nat)
    (h : Holding) (hsome : (l.find? (fun p => p.1 == k)).isSome) :
    ((l.map (fun p => if p.1 == k then (p.1, h) else p)).find?
        (fun p => p.1 == k)).map Prod.snd = some h := by
  induction l with
  | nil => simp [List.find?] at hsome
  | cons x xs ih =>
    simp only [List.map_cons]
    by_cases hk : x.1 = k
    · rw [if_pos (by simp [hk])]
      rw [List.find?_cons_of_pos _ (by simp [hk])]
      rfl
    · rw [if_neg (by simp [hk])]
      rw [List.find?_cons_of_neg _ (by simp [hk])]
      rw [List.find?_cons_of_neg _ (by simp [hk])] at hsome
      exact ih hsome

theorem find?_hold_append_self (l : List ((Nat × Nat) × Holding)) (k : Nat × Nat)
    (h : Holding) (hnone : l.find? (fun p => p.1 == k) = none) :
    ((l ++ [(k, h)]).find? (fun p => p.1 == k)).map Prod.snd = some h := by
  rw [List.find?_append, hnone]
  simp [List.find?]

/-- After the write-back of `some h` under a key, the next holding
lookup under that key sees exactly `h` (updated in place or freshly
inserted). -/
theorem lookupHolding_set_self (db : DB) (aid sid : Nat) (h : Holding) :
    lookupHolding (setHoldingRow db aid sid (some h)) aid sid = some h := by
  show lookupHolding
    (if (lookupHolding db aid sid).isSome then updateHolding db aid sid h
     else insertHolding db aid sid h) aid sid = some h
  by_cases hs : (lookupHolding db aid sid).isSome
  · rw [if_pos hs]
    unfold lookupHolding updateHolding at *
    apply find?_hold_update_self db.holdings (aid, sid) h
    cases hf : db.holdings.find? (fun p => p.1 == (aid, sid)) with
    | none => rw [hf] at hs; simp at hs
    | some q => rfl
  · rw [if_neg hs]
    unfold lookupHolding insertHolding at *
    apply find?_hold_append_self
    cases hf : db.holdings.find? (fun p => p.1 == (aid, sid)) with
    | none => rfl
    | some q => rw [hf] at hs; simp at hs

/-- C4: two successive market buys of the same security — `q1` at `p1`
then `q2` at `p2`, no intervening operation — starting from any owned
account with no position and sufficient funds, leave a holding of
quantity `q1 + q2` whose `average_cost` is exactly
`(q1*p1 + q2*p2) / (q1 + q2)` in the exact rational arithmetic the
engine performs; storing that value at the declared scale 2 moves it
by at most half an ulp (1/200), so there is no drift beyond the
declared scale. -/
theorem average_cost_of_two_buys (db : DB) (uid aid sid : Nat) (a : Account)
    (q1 p1 q2 p2 : ℚ)
    (hq1 : 0 < q1) (hp1 : 0 < p1) (hq2 : 0 < q2) (hp2 : 0 < p2)
    (hl : lookupAccount db aid uid = some a)
    (hh : lookupHolding db aid sid = none)
    (hb : q1 * p1 + q2 * p2 ≤ a.balance) :
    (place_order db uid ⟨aid, sid, "market", "buy", q1, p1⟩).2 = none ∧
    (place_order (place_order db uid ⟨aid, sid, "market", "buy", q1, p1⟩).1 uid
      ⟨aid, sid, "market", "buy", q2, p2⟩).2 = none ∧
    lookupHolding (place_order
        (place_order db uid ⟨aid, sid, "market", "buy", q1, p1⟩).1 uid
        ⟨aid, sid, "market", "buy", q2, p2⟩).1 aid sid =
      some ⟨q1 + q2, (q1 * p1 + q2 * p2) / (q1 + q2), p2⟩ ∧
    |pgRound2 ((q1 * p1 + q2 * p2) / (q1 + q2)) -
      (q1 * p1 + q2 * p2) / (q1 + q2)| ≤ 1 / 200 := by
  have hqp1 : 0 < q1 * p1 := mul_pos hq1 hp1
  have hqp2 : 0 < q2 * p2 := mul_pos hq2 hp2
  have hb1 : ¬ a.balance < q1 * p1 := not_lt.mpr (by linarith)
  have e1 : place_order db uid ⟨aid, sid, "market", "buy", q1, p1⟩ =
      (insertOrder (setHoldingRow (updateAccountBalance db aid (a.balance - q1 * p1))
        aid sid (some ⟨q1, p1, p1⟩))
        ⟨aid, sid, "market", "buy", q1, p1, "filled", q1, some p1, false, false⟩,
        none) := by
    apply place_order_market_ok db uid ⟨aid, sid, "market", "buy", q1, p1⟩ "buy" a
      (a.balance - q1 * p1) (some ⟨q1, p1, p1⟩)
      (not_le.mpr hq1) (not_le.mpr hp1) rfl rfl hl
    show marketOrderAccounting "buy" q1 p1 a.balance (lookupHolding db aid sid) = _
    rw [hh]
    exact marketOrderAccounting_buy_new q1 p1 a.balance hb1
  refine ⟨by rw [e1], ?_, ?_, pgRound2_within_half_cent _⟩ <;>
  · rw [e1]
    have hl2 : lookupAccount (insertOrder (setHoldingRow
        (updateAccountBalance db aid (a.balance - q1 * p1)) aid sid
        (some ⟨q1, p1, p1⟩))
        ⟨aid, sid, "market", "buy", q1, p1, "filled", q1, some p1, false, false⟩)
        aid uid = some { a with balance := a.balance - q1 * p1 } := by
      show lookupAccount (setHoldingRow
        (updateAccountBalance db aid (a.balance - q1 * p1)) aid sid
        (some ⟨q1, p1, p1⟩)) aid uid = _
      unfold lookupAccount
      rw [setHoldingRow_accounts]
      exact lookupAccount_update_self db aid uid a (a.balance - q1 * p1) hl
    have hh2 : lookupHolding (insertOrder (setHoldingRow
        (updateAccountBalance db aid (a.balance - q1 * p1)) aid sid
        (some ⟨q1, p1, p1⟩))
        ⟨aid, sid, "market", "buy", q1, p1, "filled", q1, some p1, false, false⟩)
        aid sid = some ⟨q1, p1, p1⟩ := by
      show lookupHolding (setHoldingRow
        (updateAccountBalance db aid (a.balance - q1 * p1)) aid sid
        (some ⟨q1, p1, p1⟩)) aid sid = _
      exact lookupHolding_set_self _ aid sid ⟨q1, p1, p1⟩
    have hb2 : ¬ ({ a with balance := a.balance - q1 * p1 } : Account).balance
        < q2 * p2 := not_lt.mpr (by show q2 * p2 ≤ a.balance - q1 * p1; linarith)
    have e2 : place_order (insertOrder (setHoldingRow
        (updateAccountBalance db aid (a.balance - q1 * p1)) aid sid
        (some ⟨q1, p1, p1⟩))
        ⟨aid, sid, "market", "buy", q1, p1, "filled", q1, some p1, false, false⟩)
        uid ⟨aid, sid, "market", "buy", q2, p2⟩ =
        (insertOrder (setHoldingRow (updateAccountBalance
          (insertOrder (setHoldingRow
            (updateAccountBalance db aid (a.balance - q1 * p1)) aid sid
            (some ⟨q1, p1, p1⟩))
            ⟨aid, sid, "market", "buy", q1, p1, "filled", q1, some p1, false, false⟩)
          aid (a.balance - q1 * p1 - q2 * p2)) aid sid
          (some ⟨q1 + q2, (q1 * p1 + q2 * p2) / (q1 + q2), p2⟩))
          ⟨aid, sid, "market", "buy", q2, p2, "filled", q2, some p2, false, false⟩,
          none) := by
      apply place_order_market_ok _ uid ⟨aid, sid, "market", "buy", q2, p2⟩ "buy"
        { a with balance := a.balance - q1 * p1 }
        (a.balance - q1 * p1 - q2 * p2)
        (some ⟨q1 + q2, (q1 * p1 + q2 * p2) / (q1 + q2), p2⟩)
        (not_le.mpr hq2) (not_le.mpr hp2) rfl rfl hl2
      show marketOrderAccounting "buy" q2 p2 _ _ = _
      rw [hh2]
      exact marketOrderAccounting_buy_add q2 p2 _ ⟨q1, p1, p1⟩ hb2
    rw [e2]
    try rfl
    try exact lookupHolding_set_self _ aid sid _

/-- Witness for C4: buying 1 unit at 100.00 and then 2 units at 100.10
yields average cost 300.20 / 3 exactly. -/
theorem average_cost_of_two_buys_witness :
    (0:ℚ) < 1 ∧ (0:ℚ) < 100 ∧ (0:ℚ) < 2 ∧ (0:ℚ) < 1001/10 ∧
    lookupAccount ⟨[(1, ⟨7, 1000⟩)], [], [], [], [], 0⟩ 1 7 = some ⟨7, 1000⟩ ∧
    lookupHolding ⟨[(1, ⟨7, 1000⟩)], [], [], [], [], 0⟩ 1 2 = none ∧
    (1 * 100 + 2 * (1001/10) : ℚ) ≤ (1000:ℚ) ∧
    lookupHolding (place_order
        (place_order ⟨[(1, ⟨7, 1000⟩)], [], [], [], [], 0⟩ 7
          ⟨1, 2, "market", "buy", 1, 100⟩).1 7
        ⟨1, 2, "market", "buy", 2, 1001/10⟩).1 1 2 =
      some ⟨1 + 2, (1 * 100 + 2 * (1001/10)) / (1 + 2), 1001/10⟩ :=
  ⟨by decide, by decide, by decide, by decide, by decide, by decide, by decide,
   (average_cost_of_two_buys ⟨[(1, ⟨7, 1000⟩)], [], [], [], [], 0⟩ 7 1 2 ⟨7, 1000⟩
      1 100 2 (1001/10) (by decide) (by decide) (by decide) (by decide)
      (by decide) (by decide) (by decide)).2.2.1⟩

/-- Witness for C1: a market buy of notional 2000 against balance 1000
is rejected with insufficient funds and the returned state is exactly
the initial one (no order row created). -/
theorem rejected_operations_change_no_state_witness :
    (place_order ⟨[(1, ⟨7, 1000⟩)], [], [], [], [], 0⟩ 7
        ⟨1, 2, "market", "buy", 10, 200⟩).2 = some Err.insufficientFunds ∧
    (place_order ⟨[(1, ⟨7, 1000⟩)], [], [], [], [], 0⟩ 7
        ⟨1, 2, "market", "buy", 10, 200⟩).1 = ⟨[(1, ⟨7, 1000⟩)], [], [], [], [], 0⟩ :=
  ⟨by decide,
   (rejected_operations_change_no_state ⟨[(1, ⟨7, 1000⟩)], [], [], [], [], 0⟩ 7).2.1
     ⟨1, 2, "market", "buy", 10, 200⟩ Err.insufficientFunds (by decide)⟩

end TickerTap
